import Mathlib

/-!
Verification of the normalization and selection pipeline of the NACE Rev. 2
choropleth app (file src/app.py).

Shallow embedding of the two core functions:

* load_df (the Normalizer): filters the raw Eurostat wide table to the
  "HTC" classification, drops the classification column, renames the
  raw time-axis column to geo (both schema-level no-ops in this embedding,
  where the surviving columns are structure fields), removes the aggregate
  geo codes, unpivots the year columns, resolves location names via the
  geo dictionary (a KeyError when a code is missing), recodes the sex
  and unit columns, and applies the (attempted) historical-Germany rename.

* update_df (the Selector): translates a level label to a geo-code
  length via list index + 2 (a ValueError when the label is absent),
  translates the unit label ("Percent" when the label equals "Rel.",
  "Thousand" otherwise), and filters the normalized table by year,
  geo length, sex and unit.

Cell values are numeric measurements that the pipeline moves around but
never inspects or computes with; Option Int is used as their carrier
(none is a missing cell, the NaN of pandas).  Row order of the unpivot is
row-major here while pandas melt stacks column-major; the two differ only
by a permutation and no claim or spec invariant depends on row order.
-/

namespace NaceApp

/-- The aggregate geo codes excluded on line 46 of app.py by
the mask over `geo.isin(["EU27_2020", "EU28", "EU15", "EA19"])`. -/
def aggregates : List String := ["EU27_2020", "EU28", "EU15", "EA19"]

/-- One row of the raw wide table returned by `eurostat.get_data_df`:
the key columns `nace_r2`, `sex`, the raw time-axis column (called `geo`
here, the rename on line 45 of app.py), `unit`, and one cell per year
column. -/
structure RawRow where
  nace_r2 : String
  sex : String
  geo : String
  unit : String
  values : List (Option Int)
deriving DecidableEq

/-- The raw wide table: the year column headers plus the rows.  Each row
carries one cell per year column (`values` aligned with `yearCols`). -/
structure RawTable where
  yearCols : List Int
  rows : List RawRow
deriving DecidableEq

/-- A row of the unpivoted (melted) table of line 48 of app.py, before
location resolution: id columns `sex`, `geo`, `unit` plus the `year`
column name and the cell as `value`. -/
structure MeltRow where
  year : Int
  sex : String
  geo : String
  unit : String
  value : Option Int
deriving DecidableEq

/-- A normalized observation, the rows of the result of load_df after the
column rearrangement on line 60 of app.py. -/
structure Obs where
  year : Int
  sex : String
  unit : String
  value : Option Int
  geo : String
  location : String
deriving DecidableEq

deriving instance DecidableEq for Except

/-- Line 52 of app.py: the dict-based replace of the sex column with
`{"M": "Males", "F": "Females", "T": "Total"}`.  A pandas Series.replace
with a dict rewrites cells equal to a key and leaves every other cell
unchanged. -/
def recodeSex (s : String) : String :=
  if s = "M" then "Males" else if s = "F" then "Females" else if s = "T" then "Total" else s

/-- Lines 53-55 of app.py: the unit column is mapped by the lambda
returning "Percent" when the cell equals "PC_EMP" and "Thousand"
otherwise. -/
def recodeUnit (u : String) : String :=
  if u = "PC_EMP" then "Percent" else "Thousand"

/-- The pattern passed to str.replace on lines 56-58 of app.py.  It is a
Python raw-string regex-escaped pattern, so the backslashes before the
parentheses are literal characters of the pattern (the call passes
`regex=False`, under which nothing is an escape). -/
def germanyPat : String := "Germany \\(until 1990 former territory of the FRG\\)"

/-- Checks whether the first list is an initial segment of the second;
on success returns the remainder after it. -/
def matchRest : List Char → List Char → Option (List Char)
  | [], l => some l
  | _ :: _, [] => none
  | p :: ps, c :: cs => if p = c then matchRest ps cs else none

/-- Literal (non-regex) replace-all on character lists, the semantics of
a pandas `str.replace(pat, rep, regex=False)` for a nonempty pattern.  The
fuel argument only bounds the number of steps so that the recursion is
structural; every step consumes at least one character, so fuel equal to
the input length never runs out. -/
def replaceAllFuel (pat rep : List Char) : Nat → List Char → List Char
  | _, [] => []
  | 0, l => l
  | n + 1, c :: cs =>
    match matchRest pat (c :: cs) with
    | some rest => rep ++ replaceAllFuel pat rep n rest
    | none => c :: replaceAllFuel pat rep n cs

/-- Literal replace-all on strings (the pattern used here is never
empty). -/
def replaceAll (s pat rep : String) : String :=
  if pat.isEmpty then s
  else ⟨replaceAllFuel pat.toList rep.toList s.toList.length s.toList⟩

/-- Lines 56-58 of app.py applied to one location cell:
`str.replace(germanyPat, "Germany", regex=False)`. -/
def fixLocation (loc : String) : String :=
  replaceAll loc germanyPat "Germany"

/-- Line 48 of app.py restricted to one raw row: each year column
becomes one long row holding `(sex, geo, unit)` and the cell as
`value`. -/
def meltRow (yearCols : List Int) (r : RawRow) : List MeltRow :=
  (yearCols.zip r.values).map fun p =>
    { year := p.1, sex := r.sex, geo := r.geo, unit := r.unit, value := p.2 }

/-- Sequential effectful map over `Except`, stopping at the first error;
the behaviour of a column-wise pandas apply whose lambda may raise. -/
def mapExcept (f : α → Except String β) : List α → Except String (List β)
  | [] => .ok []
  | a :: as =>
    match f a with
    | .error e => .error e
    | .ok b =>
      match mapExcept f as with
      | .error e => .error e
      | .ok bs => .ok (b :: bs)

/-- Lines 50-58 of app.py restricted to one melted row: resolve the
location via `location_dict[geo]` (a KeyError when absent), then recode
sex and unit and apply the Germany rename.  In the source the lookup runs
over the whole column before the recodes; per row the composition is the
same, and a lookup failure aborts the whole normalization either way. -/
def locate (locDict : String → Option String) (m : MeltRow) : Except String Obs :=
  match locDict m.geo with
  | some loc =>
    .ok { year := m.year, sex := recodeSex m.sex, unit := recodeUnit m.unit,
          value := m.value, geo := m.geo, location := fixLocation loc }
  | none => .error ("KeyError: " ++ m.geo)

/-- Line 43 of app.py: keep only the rows whose classification is
"HTC". -/
def filterHTC (rows : List RawRow) : List RawRow :=
  rows.filter fun r => r.nace_r2 == "HTC"

/-- Line 46 of app.py: drop the rows whose geo code is one of the
aggregate codes. -/
def dropAggregates (rows : List RawRow) : List RawRow :=
  rows.filter fun r => !(aggregates.contains r.geo)

/-- Line 48 of app.py: unpivot the filtered wide table into one row per
(row, year column) pair. -/
def meltTable (t : RawTable) : List MeltRow :=
  (dropAggregates (filterHTC t.rows)).flatMap (meltRow t.yearCols)

/-- The function load_df of app.py (lines 37-61), parametrized by the
fetched raw table and geo dictionary instead of performing the network
calls: filter to the "HTC" classification, drop the aggregate geo codes,
unpivot, resolve locations, recode sex and unit, apply the Germany
rename. -/
def load_df (t : RawTable) (locDict : String → Option String) :
    Except String (List Obs) :=
  mapExcept (locate locDict) (meltTable t)

/-- The level labels of line 88 of app.py:
`["Countries", "NUTS 1", "NUTS 2"]`. -/
def levelLabels : List String := ["Countries", "NUTS 1", "NUTS 2"]

/-- The function update_df of app.py (lines 85-96): the list method
`.index(nuts)` raises ValueError for a label not in the list, the unit
label is translated ("Percent" for "Rel.", "Thousand" otherwise), then
the table is filtered on year, geo-code length, sex and unit. -/
def update_df (df : List Obs) (year : Int) (nuts : String) (sex : String)
    (unitLabel : String) : Except String (List Obs) :=
  match levelLabels.findIdx? (· == nuts) with
  | none => .error ("ValueError: " ++ nuts ++ " is not in list")
  | some i =>
    let len := i + 2
    let u := if unitLabel == "Rel." then "Percent" else "Thousand"
    .ok (df.filter fun o =>
      o.year == year && o.geo.length == len && o.sex == sex && o.unit == u)

/-- The level-to-geo-length mapping as the spec states it (Countries to 2,
NUTS 1 to 3, NUTS 2 to 4), for comparison with the translation inside
update_df. -/
def length_for (l : String) : Nat :=
  if l = "Countries" then 2 else if l = "NUTS 1" then 3 else 4

/-- The unit-label mapping as the spec states it (Rel. to Percent,
Abs. to Thousand), for comparison with the translation inside
update_df. -/
def unit_for (u : String) : String :=
  if u = "Rel." then "Percent" else "Thousand"

/-- The coordinate tuple the spec declares to be a unique key of the
normalized table. -/
def obsKey (o : Obs) : Int × String × String × String :=
  (o.year, o.sex, o.unit, o.geo)

/-! Concrete tables and dictionaries used to evaluate the pipeline at
specific inputs. -/

/-- The Eurostat display name of the geo code DE. -/
def germanyRaw : String := "Germany (until 1990 former territory of the FRG)"

/-- A small geo dictionary with the entries the concrete tables use. -/
def d_demo : String → Option String := fun g =>
  if g = "DE" then some germanyRaw
  else if g = "AT" then some "Austria"
  else none

/-- The raw table of the spec acceptance test for the Germany rename: one
row for classification "HTC", sex "T", geo "DE", unit "PC_EMP", with one
column per year 2008-2021. -/
def t_DE : RawTable :=
  { yearCols := (List.range 14).map fun i => 2008 + (i : Int)
    rows := [{ nace_r2 := "HTC", sex := "T", geo := "DE", unit := "PC_EMP",
               values := (List.range 14).map fun i => some ((i : Int) + 1) }] }

/-- The normalized table the pipeline produces from `t_DE` and
`d_demo`. -/
def normDE : List Obs :=
  (List.range 14).map fun i =>
    { year := 2008 + (i : Int), sex := "Total", unit := "Percent",
      value := some ((i : Int) + 1), geo := "DE", location := germanyRaw }

/-- A single normalized observation used as Selector input. -/
def obsTh : Obs :=
  { year := 2021, sex := "Total", unit := "Thousand", value := some 2,
    geo := "AT", location := "Austria" }

/-- A raw table containing an aggregate row (geo EU27_2020) next to an
ordinary country row. -/
def t_EU : RawTable :=
  { yearCols := [2021]
    rows :=
      [ { nace_r2 := "HTC", sex := "T", geo := "EU27_2020", unit := "PC_EMP",
          values := [some 9] },
        { nace_r2 := "HTC", sex := "T", geo := "AT", unit := "PC_EMP",
          values := [some 5] } ] }

/-- The normalized table the pipeline produces from `t_EU` and
`d_demo`. -/
def outEU : List Obs :=
  [{ year := 2021, sex := "Total", unit := "Percent", value := some 5,
     geo := "AT", location := "Austria" }]

/-- A surviving raw row whose geo code XX has no entry in `d_demo`. -/
def rowXX : RawRow :=
  { nace_r2 := "HTC", sex := "T", geo := "XX", unit := "PC_EMP", values := [some 1] }

/-- A raw table whose only row has a geo code missing from `d_demo`. -/
def t_XX : RawTable := { yearCols := [2021], rows := [rowXX] }

/-- A raw row duplicated verbatim inside `t_dup`. -/
def rowDup : RawRow :=
  { nace_r2 := "HTC", sex := "T", geo := "DE", unit := "PC_EMP", values := [some 1] }

/-- A raw table with two identical rows, so its raw key is not unique. -/
def t_dup : RawTable := { yearCols := [2021], rows := [rowDup, rowDup] }

/-- The observation produced twice from `t_dup`. -/
def obsDup : Obs :=
  { year := 2021, sex := "Total", unit := "Percent", value := some 1,
    geo := "DE", location := germanyRaw }

/-- The normalized table the pipeline produces from `t_dup` and
`d_demo`: the same observation twice. -/
def dupOut : List Obs := [obsDup, obsDup]

/-- A raw table with one missing cell (year 2008) and one present cell
(year 2009). -/
def t_miss : RawTable :=
  { yearCols := [2008, 2009]
    rows := [{ nace_r2 := "HTC", sex := "F", geo := "AT", unit := "THS",
               values := [none, some 3] }] }

/-- The normalized table the pipeline produces from `t_miss` and
`d_demo`. -/
def outMiss : List Obs :=
  [ { year := 2008, sex := "Females", unit := "Thousand", value := none,
      geo := "AT", location := "Austria" },
    { year := 2009, sex := "Females", unit := "Thousand", value := some 3,
      geo := "AT", location := "Austria" } ]

/-! Helper lemmas about the embedded operations. -/

/-- When `mapExcept` succeeds, input and output lists are pointwise
related by success of `f`. -/
theorem mapExcept_ok_forall₂ {f : α → Except String β} {l : List α} {out : List β}
    (h : mapExcept f l = .ok out) :
    List.Forall₂ (fun a b => f a = .ok b) l out := by
  induction l generalizing out with
  | nil =>
    simp only [mapExcept, Except.ok.injEq] at h
    subst h
    exact List.Forall₂.nil
  | cons a as ih =>
    cases hfa : f a with
    | error e => simp [mapExcept, hfa] at h
    | ok b =>
      cases hrec : mapExcept f as with
      | error e => simp [mapExcept, hfa, hrec] at h
      | ok bs =>
        simp only [mapExcept, hfa, hrec, Except.ok.injEq] at h
        subst h
        exact List.Forall₂.cons hfa (ih hrec)

/-- When some element of the list makes `f` fail, `mapExcept` fails. -/
theorem mapExcept_error_of_mem {f : α → Except String β} {l : List α} {a : α}
    (ha : a ∈ l) {e : String} (hfa : f a = .error e) :
    ∃ e', mapExcept f l = .error e' := by
  induction l with
  | nil => cases ha
  | cons b bs ih =>
    cases hfb : f b with
    | error e'' => exact ⟨e'', by simp [mapExcept, hfb]⟩
    | ok c =>
      rcases List.mem_cons.mp ha with rfl | ha'
      · rw [hfa] at hfb
        cases hfb
      · rcases ih ha' with ⟨e', he'⟩
        exact ⟨e', by simp [mapExcept, hfb, he']⟩

/-- A right-hand member of a `Forall₂` has a related left-hand member. -/
theorem forall₂_mem_right {R : α → β → Prop} {l1 : List α} {l2 : List β}
    (h : List.Forall₂ R l1 l2) (b : β) (hb : b ∈ l2) : ∃ a ∈ l1, R a b := by
  induction h with
  | nil => cases hb
  | cons hr _ ih =>
    rcases List.mem_cons.mp hb with rfl | hb'
    · exact ⟨_, List.mem_cons_self .., hr⟩
    · rcases ih hb' with ⟨a, ha, hra⟩
      exact ⟨a, List.mem_cons_of_mem _ ha, hra⟩

/-- A left-hand member of a `Forall₂` has a related right-hand member. -/
theorem forall₂_mem_left {R : α → β → Prop} {l1 : List α} {l2 : List β}
    (h : List.Forall₂ R l1 l2) (a : α) (ha : a ∈ l1) : ∃ b ∈ l2, R a b := by
  induction h with
  | nil => cases ha
  | cons hr _ ih =>
    rcases List.mem_cons.mp ha with rfl | ha'
    · exact ⟨_, List.mem_cons_self .., hr⟩
    · rcases ih ha' with ⟨b, hb, hrb⟩
      exact ⟨b, List.mem_cons_of_mem _ hb, hrb⟩

/-- Maps taken on the two sides of a `Forall₂` agree when the relation
forces them to. -/
theorem forall₂_map_eq {R : α → β → Prop} {g : β → γ} {k : α → γ}
    {l1 : List α} {l2 : List β} (h : List.Forall₂ R l1 l2)
    (hgk : ∀ a b, R a b → g b = k a) : l2.map g = l1.map k := by
  induction h with
  | nil => rfl
  | cons hr _ ih => simp [List.map_cons, hgk _ _ hr, ih]

/-- The first components of a zip form a sublist of the first list. -/
theorem zip_map_fst_sublist (l1 : List α) (l2 : List β) :
    ((l1.zip l2).map Prod.fst).Sublist l1 := by
  induction l1 generalizing l2 with
  | nil => simp
  | cons a as ih =>
    cases l2 with
    | nil => simp
    | cons b bs => simpa using (ih bs).cons₂ a

/-- Membership in the filtered raw rows unpacked. -/
theorem mem_surviving {t : RawTable} {r : RawRow}
    (hr : r ∈ dropAggregates (filterHTC t.rows)) :
    r ∈ t.rows ∧ r.nace_r2 = "HTC" ∧ r.geo ∉ aggregates := by
  simp [dropAggregates, filterHTC, List.mem_filter] at hr
  exact ⟨hr.1, hr.2.2, hr.2.1⟩

/-- A raw row that passes both filters is among the filtered rows. -/
theorem mem_surviving_of {t : RawTable} {r : RawRow} (hr : r ∈ t.rows)
    (hhtc : r.nace_r2 = "HTC") (hagg : r.geo ∉ aggregates) :
    r ∈ dropAggregates (filterHTC t.rows) := by
  simp [dropAggregates, filterHTC, List.mem_filter]
  exact ⟨hr, hagg, hhtc⟩

/-- Every row of a successful normalization arises from a surviving raw
row, a year column, and a successful location lookup. -/
theorem load_df_ok_mem {t : RawTable} {d : String → Option String} {out : List Obs}
    (h : load_df t d = .ok out) {o : Obs} (ho : o ∈ out) :
    ∃ r ∈ t.rows, r.nace_r2 = "HTC" ∧ r.geo ∉ aggregates ∧
      ∃ p ∈ t.yearCols.zip r.values, ∃ nm, d r.geo = some nm ∧
        o = { year := p.1, sex := recodeSex r.sex, unit := recodeUnit r.unit,
              value := p.2, geo := r.geo, location := fixLocation nm } := by
  have hf2 := mapExcept_ok_forall₂ (f := locate d) (l := meltTable t) h
  obtain ⟨m, hm, hloc⟩ := forall₂_mem_right hf2 o ho
  obtain ⟨r, hr, hmr⟩ := List.mem_flatMap.mp hm
  obtain ⟨hrt, hhtc, hagg⟩ := mem_surviving hr
  obtain ⟨p, hp, rfl⟩ := List.mem_map.mp hmr
  cases hdm : d r.geo with
  | none => simp [locate, hdm] at hloc
  | some nm =>
    simp only [locate, hdm, Except.ok.injEq] at hloc
    exact ⟨r, hrt, hhtc, hagg, p, hp, nm, hdm, hloc.symm⟩

/-- Every cell of a surviving raw row reaches the output of a successful
normalization. -/
theorem load_df_ok_mem_of {t : RawTable} {d : String → Option String} {out : List Obs}
    (h : load_df t d = .ok out) {r : RawRow} (hr : r ∈ t.rows)
    (hhtc : r.nace_r2 = "HTC") (hagg : r.geo ∉ aggregates)
    {p : Int × Option Int} (hp : p ∈ t.yearCols.zip r.values) :
    ∃ nm, d r.geo = some nm ∧
      ({ year := p.1, sex := recodeSex r.sex, unit := recodeUnit r.unit,
             value := p.2, geo := r.geo, location := fixLocation nm } : Obs) ∈ out := by
  have hf2 := mapExcept_ok_forall₂ (f := locate d) (l := meltTable t) h
  have hmel : ({ year := p.1, sex := r.sex, geo := r.geo, unit := r.unit,
                     value := p.2 } : MeltRow) ∈ meltTable t :=
    List.mem_flatMap.mpr ⟨r, mem_surviving_of hr hhtc hagg,
      List.mem_map.mpr ⟨p, hp, rfl⟩⟩
  obtain ⟨o, ho, hloc⟩ := forall₂_mem_left hf2 _ hmel
  cases hdm : d r.geo with
  | none => simp [locate, hdm] at hloc
  | some nm =>
    simp only [locate, hdm, Except.ok.injEq] at hloc
    exact ⟨nm, rfl, hloc ▸ ho⟩

/-- The sex recode is injective on the raw source vocabulary. -/
theorem recodeSex_injOn {a b : String} (ha : a = "M" ∨ a = "F" ∨ a = "T")
    (hb : b = "M" ∨ b = "F" ∨ b = "T") (h : recodeSex a = recodeSex b) : a = b := by
  rcases ha with rfl | rfl | rfl <;> rcases hb with rfl | rfl | rfl <;>
    revert h <;> decide

/-- The unit recode is injective on the raw source vocabulary. -/
theorem recodeUnit_injOn {a b : String} (ha : a = "PC_EMP" ∨ a = "THS")
    (hb : b = "PC_EMP" ∨ b = "THS") (h : recodeUnit a = recodeUnit b) : a = b := by
  rcases ha with rfl | rfl <;> rcases hb with rfl | rfl <;>
    revert h <;> decide

/-- The key tuples of the melted rows of one raw row, as a map over the
zipped year columns. -/
theorem meltRow_keys (yc : List Int) (r : RawRow) :
    (meltRow yc r).map (fun m => (m.year, recodeSex m.sex, recodeUnit m.unit, m.geo))
      = ((yc.zip r.values).map Prod.fst).map
          (fun y => (y, recodeSex r.sex, recodeUnit r.unit, r.geo)) := by
  simp [meltRow, List.map_map]

/-- For a valid level label, update_df reduces to a plain filter with the
translated geo-code length and unit. -/
theorem update_df_valid_level (df : List Obs) (y : Int) (s : String) (u : String)
    (l : String) (hl : l = "Countries" ∨ l = "NUTS 1" ∨ l = "NUTS 2") :
    update_df df y l s u = .ok (df.filter fun o =>
      o.year == y && o.geo.length == length_for l && o.sex == s &&
        o.unit == (if u == "Rel." then "Percent" else "Thousand")) := by
  rcases hl with rfl | rfl | rfl <;> rfl

/-! Claim theorems. -/

/-- C1: for every normalized table and well-formed selection (year y,
level l in Countries / NUTS 1 / NUTS 2, sex s, unit u in Abs. / Rel.),
update_df returns a subset of the input rows, and a row is returned iff
it satisfies year = y, geo length = length_for l (Countries 2, NUTS 1 3,
NUTS 2 4), sex = s, and unit = unit_for u (Rel. Percent, Abs.
Thousand). -/
theorem update_df_selects_exactly (df : List Obs) (y : Int) (s : String)
    (l u : String) (hl : l = "Countries" ∨ l = "NUTS 1" ∨ l = "NUTS 2")
    (hu : u = "Abs." ∨ u = "Rel.") :
    ∃ res, update_df df y l s u = .ok res ∧ res.Sublist df ∧
      ∀ o, o ∈ res ↔ o ∈ df ∧
        (o.year = y ∧ o.geo.length = length_for l ∧ o.sex = s ∧
          o.unit = unit_for u) := by
  refine ⟨_, update_df_valid_level df y s u l hl, List.filter_sublist _, fun o => ?_⟩
  rw [List.mem_filter]
  rcases hu with rfl | rfl <;> simp [unit_for, and_assoc]

/-- Witness for C1 at a concrete table and selection. -/
theorem update_df_selects_exactly_witness :
    ∃ res, update_df [obsTh] 2021 "Countries" "Total" "Abs." = .ok res ∧
      res.Sublist [obsTh] ∧
      ∀ o, o ∈ res ↔ o ∈ [obsTh] ∧
        (o.year = 2021 ∧ o.geo.length = length_for "Countries" ∧
          o.sex = "Total" ∧ o.unit = unit_for "Abs.") :=
  update_df_selects_exactly [obsTh] 2021 "Total" "Countries" "Abs."
    (Or.inl rfl) (Or.inl rfl)

/-- C3 counterexample: a unit label outside the enumerated domain
(here "Kilograms") does not make update_df fail; the Selector silently
treats it like Abs. and filters for unit Thousand, returning the
matching row. -/
theorem update_df_unknown_unit_no_error :
    update_df [obsTh] 2021 "Countries" "Total" "Kilograms" = .ok [obsTh] := by
  decide

/-- C3 amended: for every unit label other than Rel. — including every
label outside the enumerated domain — update_df does not fail; it falls
back to the default unit mapping Thousand and filters with it. -/
theorem update_df_unknown_unit_falls_back (df : List Obs) (y : Int) (s : String)
    (l u : String) (hl : l = "Countries" ∨ l = "NUTS 1" ∨ l = "NUTS 2")
    (hu : u ≠ "Rel.") :
    ∃ res, update_df df y l s u = .ok res ∧
      ∀ o, o ∈ res ↔ o ∈ df ∧
        (o.year = y ∧ o.geo.length = length_for l ∧ o.sex = s ∧
          o.unit = "Thousand") := by
  refine ⟨_, update_df_valid_level df y s u l hl, fun o => ?_⟩
  rw [List.mem_filter]
  have hb : (u == "Rel.") = false := by simpa using hu
  simp [hb, and_assoc]

/-- Witness for the amended C3 at a concrete unknown unit label. -/
theorem update_df_unknown_unit_falls_back_witness :
    ∃ res, update_df [obsTh] 2021 "NUTS 1" "Total" "Kilograms" = .ok res ∧
      ∀ o, o ∈ res ↔ o ∈ [obsTh] ∧
        (o.year = 2021 ∧ o.geo.length = length_for "NUTS 1" ∧
          o.sex = "Total" ∧ o.unit = "Thousand") :=
  update_df_unknown_unit_falls_back [obsTh] 2021 "Total" "NUTS 1" "Kilograms"
    (Or.inr (Or.inl rfl)) (by decide)

/-- C4: for every level label outside Countries / NUTS 1 / NUTS 2,
update_df fails fast with the ValueError of the list index method rather
than applying any default geo-code length. -/
theorem update_df_unknown_level_fails (df : List Obs) (y : Int) (s : String)
    (u : String) (l : String) (hl : l ∉ levelLabels) :
    update_df df y l s u = .error ("ValueError: " ++ l ++ " is not in list") := by
  have hidx : levelLabels.findIdx? (· == l) = none := by
    rw [List.findIdx?_eq_none_iff]
    intro x hx
    simp only [beq_eq_false_iff_ne]
    intro hxl
    exact hl (hxl ▸ hx)
  simp [update_df, hidx]

/-- Witness for C4 at the concrete unknown label NUTS-3. -/
theorem update_df_unknown_level_fails_witness :
    update_df [obsTh] 2021 "NUTS-3" "Total" "Rel."
      = .error ("ValueError: " ++ "NUTS-3" ++ " is not in list") :=
  update_df_unknown_level_fails [obsTh] 2021 "Total" "Rel." "NUTS-3" (by decide)

/-- C9: a well-formed selection that matches no observation rows —
for example any year outside the observed range — returns an empty table
and does not raise an error. -/
theorem update_df_no_match_empty (df : List Obs) (y : Int) (s : String)
    (l u : String) (hl : l = "Countries" ∨ l = "NUTS 1" ∨ l = "NUTS 2")
    (hu : u = "Abs." ∨ u = "Rel.")
    (hnone : ∀ o ∈ df, ¬(o.year = y ∧ o.geo.length = length_for l ∧
      o.sex = s ∧ o.unit = unit_for u)) :
    update_df df y l s u = .ok [] := by
  rw [update_df_valid_level df y s u l hl]
  congr 1
  rw [List.filter_eq_nil_iff]
  intro o ho hcond
  apply hnone o ho
  rcases hu with rfl | rfl <;> simpa [unit_for, and_assoc] using hcond

/-- Witness for C9: the year 2050 lies outside the observed data, the
selection is well-formed, and the result is the empty table. -/
theorem update_df_no_match_empty_witness :
    update_df [obsTh] 2050 "Countries" "Total" "Rel." = .ok [] :=
  update_df_no_match_empty [obsTh] 2050 "Total" "Countries" "Rel."
    (Or.inl rfl) (Or.inr rfl) (by decide)

/-- C2 (evidence of the code bug): the str.replace call of lines 56-58
of app.py passes a regex-escaped pattern together with `regex=False`, so
the literal pattern contains backslashes that never occur in the data and
the historical Germany name is left unchanged.  Normalizing the raw table
of the spec acceptance test (one column per year 2008-2021, sex "T", geo
"DE", unit "PC_EMP") and selecting year 2021, level Countries, sex Total,
unit Rel. yields exactly one row with geo "DE", but its location is still
the historical name, not "Germany". -/
theorem germany_rename_noop :
    fixLocation germanyRaw = germanyRaw ∧
    load_df t_DE d_demo = .ok normDE ∧
    update_df normDE 2021 "Countries" "Total" "Rel."
      = .ok [{ year := 2021, sex := "Total", unit := "Percent", value := some 14,
               geo := "DE", location := germanyRaw }] :=
  ⟨by decide, by decide, by decide⟩

/-- C5: the output of a successful normalization contains no row whose
geo code is in the aggregate-exclusion set (EU27_2020, EU28, EU15,
EA19). -/
theorem load_df_excludes_aggregates (t : RawTable) (d : String → Option String)
    (out : List Obs) (h : load_df t d = .ok out) :
    ∀ o ∈ out, o.geo ∉ aggregates := by
  intro o ho
  obtain ⟨r, _, _, hagg, p, _, nm, _, rfl⟩ := load_df_ok_mem h ho
  exact hagg

/-- Witness for C5: a raw table with an EU27_2020 row normalizes to a
table without it. -/
theorem load_df_excludes_aggregates_witness :
    load_df t_EU d_demo = .ok outEU ∧ ∀ o ∈ outEU, o.geo ∉ aggregates :=
  ⟨by decide, load_df_excludes_aggregates t_EU d_demo outEU (by decide)⟩

/-- C6: when a geo code that survives the classification and aggregate
filters has no entry in the location lookup, load_df fails with a
KeyError-equivalent; and a successful normalization never produces a row
whose location is missing — every output location resolves from the
lookup. -/
theorem load_df_missing_location_fails (t : RawTable) (d : String → Option String)
    (r : RawRow) (hr : r ∈ t.rows) (hhtc : r.nace_r2 = "HTC")
    (hagg : r.geo ∉ aggregates) (hcells : r.values.length = t.yearCols.length)
    (hcols : t.yearCols ≠ []) (hmiss : d r.geo = none) :
    (∃ e, load_df t d = Except.error e) ∧
    ∀ (t' : RawTable) (d' : String → Option String) (out : List Obs),
      load_df t' d' = .ok out → ∀ o ∈ out, ∃ nm, d' o.geo = some nm ∧
        o.location = fixLocation nm := by
  constructor
  · obtain ⟨y, ys, hyc⟩ := List.exists_cons_of_ne_nil hcols
    have hvne : r.values ≠ [] := by
      intro hv
      rw [hv, hyc] at hcells
      simp at hcells
    obtain ⟨v, vs, hvv⟩ := List.exists_cons_of_ne_nil hvne
    have hp : ((y, v) : Int × Option Int) ∈ t.yearCols.zip r.values := by
      rw [hyc, hvv, List.zip_cons_cons]
      exact List.mem_cons_self ..
    have hmel : ({ year := y, sex := r.sex, geo := r.geo, unit := r.unit,
                       value := v } : MeltRow) ∈ meltTable t :=
      List.mem_flatMap.mpr ⟨r, mem_surviving_of hr hhtc hagg,
        List.mem_map.mpr ⟨(y, v), hp, rfl⟩⟩
    have hloc : locate d ({ year := y, sex := r.sex, geo := r.geo, unit := r.unit,
                                value := v } : MeltRow) = .error ("KeyError: " ++ r.geo) := by
      simp [locate, hmiss]
    exact mapExcept_error_of_mem hmel hloc
  · intro t' d' out hok o ho
    obtain ⟨r', _, _, _, p, _, nm, hdm, rfl⟩ := load_df_ok_mem hok ho
    exact ⟨nm, hdm, rfl⟩

/-- Witness for C6: the surviving geo code XX has no entry in the demo
lookup and normalization fails. -/
theorem load_df_missing_location_fails_witness :
    (∃ e, load_df t_XX d_demo = Except.error e) ∧
    ∀ (t' : RawTable) (d' : String → Option String) (out : List Obs),
      load_df t' d' = .ok out → ∀ o ∈ out, ∃ nm, d' o.geo = some nm ∧
        o.location = fixLocation nm :=
  load_df_missing_location_fails t_XX d_demo rowXX (by decide) (by decide)
    (by decide) (by decide) (by decide) (by decide)

/-- C8: normalization preserves absent measurements.  Every output
observation carries exactly the cell of its raw row and year column
(so no step coerces an absent value to anything, zero included), and a
missing cell of a surviving raw row becomes an output observation whose
value is absent. -/
theorem load_df_preserves_missing (t : RawTable) (d : String → Option String)
    (out : List Obs) (h : load_df t d = .ok out) :
    (∀ o ∈ out, ∃ r ∈ t.rows, ∃ p ∈ t.yearCols.zip r.values,
      o.year = p.1 ∧ o.geo = r.geo ∧ o.value = p.2) ∧
    (∀ r ∈ t.rows, r.nace_r2 = "HTC" → r.geo ∉ aggregates →
      ∀ p ∈ t.yearCols.zip r.values, p.2 = none →
        ∃ o ∈ out, o.year = p.1 ∧ o.geo = r.geo ∧ o.value = none) := by
  constructor
  · intro o ho
    obtain ⟨r, hrt, _, _, p, hp, nm, _, rfl⟩ := load_df_ok_mem h ho
    exact ⟨r, hrt, p, hp, rfl, rfl, rfl⟩
  · intro r hrt hhtc hagg p hp hpnone
    obtain ⟨nm, _, hmem⟩ := load_df_ok_mem_of h hrt hhtc hagg hp
    exact ⟨_, hmem, rfl, rfl, hpnone⟩

/-- Witness for C8 on a concrete table whose 2008 cell is missing. -/
theorem load_df_preserves_missing_witness :
    (∀ o ∈ outMiss, ∃ r ∈ t_miss.rows, ∃ p ∈ t_miss.yearCols.zip r.values,
      o.year = p.1 ∧ o.geo = r.geo ∧ o.value = p.2) ∧
    (∀ r ∈ t_miss.rows, r.nace_r2 = "HTC" → r.geo ∉ aggregates →
      ∀ p ∈ t_miss.yearCols.zip r.values, p.2 = none →
        ∃ o ∈ outMiss, o.year = p.1 ∧ o.geo = r.geo ∧ o.value = none) :=
  load_df_preserves_missing t_miss d_demo outMiss (by decide)

/-- C10: the sex recode maps M, F, T to Males, Females, Total and passes
every other raw sex code through unchanged, while the unit recode is
total: every raw unit code other than PC_EMP becomes Thousand.  Every
output row of a successful normalization carries exactly these recodes
of its raw row. -/
theorem recode_sex_partial_unit_total (s u : String)
    (hs : s ≠ "M" ∧ s ≠ "F" ∧ s ≠ "T") (hu : u ≠ "PC_EMP") :
    (recodeSex "M" = "Males" ∧ recodeSex "F" = "Females" ∧
      recodeSex "T" = "Total") ∧
    recodeSex s = s ∧
    recodeUnit "PC_EMP" = "Percent" ∧ recodeUnit u = "Thousand" ∧
    ∀ (t : RawTable) (d : String → Option String) (out : List Obs),
      load_df t d = .ok out → ∀ o ∈ out, ∃ r ∈ t.rows,
        o.sex = recodeSex r.sex ∧ o.unit = recodeUnit r.unit := by
  refine ⟨by decide, ?_, by decide, ?_, ?_⟩
  · simp [recodeSex, hs.1, hs.2.1, hs.2.2]
  · simp [recodeUnit, hu]
  · intro t d out h o ho
    obtain ⟨r, hrt, _, _, p, _, nm, _, rfl⟩ := load_df_ok_mem h ho
    exact ⟨r, hrt, rfl, rfl⟩

/-- Witness for C10 at the unknown raw codes Males and THS. -/
theorem recode_sex_partial_unit_total_witness :
    (recodeSex "M" = "Males" ∧ recodeSex "F" = "Females" ∧
      recodeSex "T" = "Total") ∧
    recodeSex "Males" = "Males" ∧
    recodeUnit "PC_EMP" = "Percent" ∧ recodeUnit "THS" = "Thousand" ∧
    ∀ (t : RawTable) (d : String → Option String) (out : List Obs),
      load_df t d = .ok out → ∀ o ∈ out, ∃ r ∈ t.rows,
        o.sex = recodeSex r.sex ∧ o.unit = recodeUnit r.unit :=
  recode_sex_partial_unit_total "Males" "THS" (by decide) (by decide)

/-- C7 counterexample: load_df performs no deduplication, so a raw table
with two identical rows normalizes to a table in which two distinct rows
agree on (year, sex, unit, geo) — the tuple is not a unique key for
every raw input table. -/
theorem load_df_duplicate_key :
    load_df t_dup d_demo = .ok dupOut ∧ ¬ (dupOut.map obsKey).Nodup :=
  ⟨by decide, by decide⟩

/-- C7 amended: when the raw table is keyed by (nace_r2, sex, geo, unit)
— as the data model of the source guarantees — with distinct year
columns, raw sex codes in the source vocabulary M / F / T and raw unit
codes in PC_EMP / THS (so that the recodes stay injective), the tuple
(year, sex, unit, geo) is a unique key of the normalized output. -/
theorem load_df_unique_key (t : RawTable) (d : String → Option String)
    (out : List Obs) (hcols : t.yearCols.Nodup)
    (hkey : t.rows.Pairwise fun r1 r2 =>
      ¬(r1.nace_r2 = r2.nace_r2 ∧ r1.sex = r2.sex ∧ r1.geo = r2.geo ∧
        r1.unit = r2.unit))
    (hsex : ∀ r ∈ t.rows, r.sex = "M" ∨ r.sex = "F" ∨ r.sex = "T")
    (hunitv : ∀ r ∈ t.rows, r.unit = "PC_EMP" ∨ r.unit = "THS")
    (h : load_df t d = .ok out) :
    (out.map obsKey).Nodup := by
  have hf2 := mapExcept_ok_forall₂ (f := locate d) (l := meltTable t) h
  have hmapeq : out.map obsKey = (meltTable t).map
      (fun m => (m.year, recodeSex m.sex, recodeUnit m.unit, m.geo)) := by
    refine forall₂_map_eq hf2 ?_
    intro m o hmo
    cases hdm : d m.geo with
    | none => simp [locate, hdm] at hmo
    | some nm =>
      simp only [locate, hdm, Except.ok.injEq] at hmo
      subst hmo
      rfl
  rw [hmapeq]
  simp only [meltTable]
  rw [List.map_flatMap, List.nodup_flatMap]
  constructor
  · intro r hr
    rw [meltRow_keys]
    have hfst : ((t.yearCols.zip r.values).map Prod.fst).Nodup :=
      hcols.sublist (zip_map_fst_sublist _ _)
    exact hfst.map fun y1 y2 h12 => congrArg Prod.fst h12
  · have hsub : (dropAggregates (filterHTC t.rows)).Sublist t.rows :=
      (List.filter_sublist _).trans (List.filter_sublist _)
    have hkey2 := hkey.sublist hsub
    refine List.Pairwise.imp_of_mem ?_ hkey2
    intro r1 r2 h1 h2 hne
    intro k hk1 hk2
    obtain ⟨m1, hm1, hk1'⟩ := List.mem_map.mp hk1
    obtain ⟨m2, hm2, hk2'⟩ := List.mem_map.mp hk2
    obtain ⟨p1, hp1, rfl⟩ := List.mem_map.mp hm1
    obtain ⟨p2, hp2, rfl⟩ := List.mem_map.mp hm2
    rw [← hk2'] at hk1'
    have htrip : (recodeSex r1.sex, recodeUnit r1.unit, r1.geo)
        = (recodeSex r2.sex, recodeUnit r2.unit, r2.geo) :=
      congrArg Prod.snd hk1'
    rw [Prod.mk.injEq, Prod.mk.injEq] at htrip
    have h1r := mem_surviving h1
    have h2r := mem_surviving h2
    apply hne
    refine ⟨h1r.2.1.trans h2r.2.1.symm, ?_, htrip.2.2, ?_⟩
    · exact recodeSex_injOn (hsex r1 h1r.1) (hsex r2 h2r.1) htrip.1
    · exact recodeUnit_injOn (hunitv r1 h1r.1) (hunitv r2 h2r.1) htrip.2.1

/-- Witness for the amended C7: the acceptance-test table is keyed and
its normalization has unique (year, sex, unit, geo) tuples. -/
theorem load_df_unique_key_witness :
    (normDE.map obsKey).Nodup :=
  load_df_unique_key t_DE d_demo normDE (by decide) (by decide) (by decide)
    (by decide) (by decide)

end NaceApp
